import Mathlib

/-!
Verification of the team-registry domain model of the `raided-discord-bot`
repository, a shallow embedding of `src/cogs/team.py` (the authoritative
`Team` dataclass plus the `TeamCog` registry commands) and of the older
`Team` dataclass variant in `src/models/team.py`.

Modelling conventions:
* a `discord.Member` is modelled by `Player` (its `id` and `bot` flag are the
  only attributes the domain code reads);
* Python `dict`s (`TeamCog._teams`, `TeamCog._player_id_to_team_name`) are
  modelled as association lists with Python dict semantics: lookup finds the
  first matching key, assignment replaces in place or appends a fresh key at
  the end, `pop` removes the entry (`dictPop` on a missing key is the
  identity; in Python `dict.pop` would raise `KeyError` there, after which no
  later statement of the command runs, which leaves the same state);
* in-place mutation of a `Team` object stored in `_teams` is rendered as
  `dictUpdate`, which rewrites the stored value under the team's key and does
  nothing when the key is absent (a popped team object mutated afterwards does
  not reappear in the dict);
* exceptions become `Except TeamError`: the `except` clauses of each command
  are rendered as explicit matches, and an uncaught exception (only
  `GuildNotFoundError` and the impossible branches) is a propagated `.error`;
* `random.choice(other_players)` receives an explicit seed `k : Nat` and picks
  index `k % length`, so every theorem quantifies over the choice.
-/

/-- A `discord.Member`, restricted to the attributes the domain logic reads. -/
structure Player where
  id : Nat
  bot : Bool
deriving Repr, DecidableEq

/-- The `Team` dataclass of `src/cogs/team.py`. -/
structure Team where
  name : String
  owner_id : Nat
  guild_id : Nat
  players : List Nat
  points : Nat
deriving Repr, DecidableEq

/-- The exception taxonomy of `src/cogs/team.py`. -/
inductive TeamError where
  | playerAlreadyOnTheTeam (player_id : Nat) (team_name : String)
  | playerNotOnTheTeam (player_id : Nat) (team_name : String)
  | playerAlreadyIsOwner (player_id : Nat) (team_name : String)
  | guildNotFound (guild_id : Nat)
  | cannotAddBotToTeam
  | playerNotOnATeam (player_id : Nat)
  | playerNotTeamOwner (player_id : Nat) (team_name : String)
  | cannotRemoveTeamOwner
deriving Repr, DecidableEq

/-- `Team.__post_init__` of `src/cogs/team.py`: constructing a `Team` appends
`owner_id` to `players` when it is not already present. -/
def Team.make (name : String) (owner_id guild_id : Nat) (players : List Nat)
    (points : Nat) : Team :=
  { name := name, owner_id := owner_id, guild_id := guild_id,
    players := if owner_id ∈ players then players else players ++ [owner_id],
    points := points }

/-- `Team.is_owned_by` of `src/cogs/team.py`. -/
def Team.is_owned_by (t : Team) (player : Player) : Bool :=
  t.owner_id = player.id

/-- `Team.add_player` of `src/cogs/team.py`: the membership check comes before
the bot check. -/
def Team.add_player (t : Team) (player : Player) : Except TeamError Team :=
  if player.id ∈ t.players then
    .error (.playerAlreadyOnTheTeam player.id t.name)
  else if player.bot then
    .error .cannotAddBotToTeam
  else
    .ok { t with players := t.players ++ [player.id] }

/-- `Team.remove_player` of `src/cogs/team.py`: removing the current owner is
rejected. `players.remove` drops the first occurrence. -/
def Team.remove_player (t : Team) (player : Player) : Except TeamError Team :=
  if player.id ∉ t.players then
    .error (.playerNotOnTheTeam player.id t.name)
  else if player.id = t.owner_id then
    .error .cannotRemoveTeamOwner
  else
    .ok { t with players := t.players.erase player.id }

/-- `Team.transfer_ownership` of `src/cogs/team.py`. -/
def Team.transfer_ownership (t : Team) (new_owner : Player) : Except TeamError Team :=
  if new_owner.id ∉ t.players then
    .error (.playerNotOnTheTeam new_owner.id t.name)
  else if t.is_owned_by new_owner then
    .error (.playerAlreadyIsOwner new_owner.id t.name)
  else
    .ok { t with owner_id := new_owner.id }

namespace Models

/-- The `Team` dataclass of `src/models/team.py`. -/
structure Team where
  name : String
  owner_id : Nat
  guild_id : Nat
  players : List Nat
  points : Nat
deriving Repr, DecidableEq

/-- `Team.add_player` of `src/models/team.py`. -/
def Team.add_player (t : Team) (player_id : Nat) : Except TeamError Team :=
  if player_id ∈ t.players then
    .error (.playerAlreadyOnTheTeam player_id t.name)
  else
    .ok { t with players := t.players ++ [player_id] }

/-- `Team.remove_player` of `src/models/team.py`: unlike the cogs variant it
performs no owner check. -/
def Team.remove_player (t : Team) (player_id : Nat) : Except TeamError Team :=
  if player_id ∉ t.players then
    .error (.playerNotOnTheTeam player_id t.name)
  else
    .ok { t with players := t.players.erase player_id }

/-- `Team.transfer_ownership` of `src/models/team.py`. -/
def Team.transfer_ownership (t : Team) (new_owner_id : Nat) : Except TeamError Team :=
  if new_owner_id ∉ t.players then
    .error (.playerNotOnTheTeam new_owner_id t.name)
  else if t.owner_id = new_owner_id then
    .error (.playerAlreadyIsOwner new_owner_id t.name)
  else
    .ok { t with owner_id := new_owner_id }

/-- `Team.__post_init__` of `src/models/team.py`: construction runs
`add_player(owner_id)` on the freshly built record, so it raises
`PlayerAlreadyOnTheTeam` when `owner_id` is already in the supplied list. -/
def mkTeam (name : String) (owner_id guild_id : Nat) (players : List Nat)
    (points : Nat) : Except TeamError Team :=
  Team.add_player
    { name := name, owner_id := owner_id, guild_id := guild_id,
      players := players, points := points }
    owner_id

end Models

/-- Python dict lookup `d.get(k)` on an association list. -/
def dictGet [DecidableEq α] : List (α × β) → α → Option β
  | [], _ => none
  | e :: d, k => if e.1 = k then some e.2 else dictGet d k

/-- Python dict assignment `d[k] = v`: replace in place, else append. -/
def dictSet [DecidableEq α] : List (α × β) → α → β → List (α × β)
  | [], k, v => [(k, v)]
  | e :: d, k, v => if e.1 = k then (k, v) :: d else e :: dictSet d k v

/-- Python dict `d.pop(k)`: drop the entry for `k` (identity when absent). -/
def dictPop [DecidableEq α] : List (α × β) → α → List (α × β)
  | [], _ => []
  | e :: d, k => if e.1 = k then d else e :: dictPop d k

/-- In-place mutation of the object stored under key `k`: rewrite the stored
value when the key is present, do nothing when it is absent. -/
def dictUpdate [DecidableEq α] : List (α × β) → α → β → List (α × β)
  | [], _, _ => []
  | e :: d, k, v => if e.1 = k then (k, v) :: d else e :: dictUpdate d k v

/-- A Discord guild, restricted to what `TeamCog` reads: its id and members. -/
structure Guild where
  id : Nat
  members : List Player
deriving Repr, DecidableEq

/-- `guild.get_member(player_id)`. -/
def Guild.get_member (g : Guild) (player_id : Nat) : Option Player :=
  g.members.find? (fun m => m.id = player_id)

/-- The ambient Discord state visible through `self.bot`. -/
structure BotEnv where
  guilds : List Guild
deriving Repr, DecidableEq

/-- `bot.get_guild(guild_id)`. -/
def BotEnv.get_guild (env : BotEnv) (guild_id : Nat) : Option Guild :=
  env.guilds.find? (fun g => g.id = guild_id)

/-- The mutable state of `TeamCog`: `_teams` (team name to `Team`) and
`_player_id_to_team_name` (player id to team name). -/
structure CogState where
  teams : List (String × Team)
  player_id_to_team_name : List (Nat × String)
deriving Repr, DecidableEq

/-- The reply sent back to the interaction (or the notification relevant to a
claim); one constructor per `Replies` message a command can end with. -/
inductive CmdReply where
  | playerNotOnATeam
  | playerNotTeamOwner
  | alreadyOnATeam (current_team : Team)
  | teamAlreadyExists (team_name : String)
  | teamCreated (created_team : Team)
  | teamDisbanded (disbanded_team : Team)
  | playerNotOnTheTeam (player : Player)
  | playerAlreadyIsOwner
  | ownershipTransferred (team : Team) (new_owner : Player)
  | tryingToAddBotToTeam
  | playerAlreadyOnTheTeam (player : Player) (team : Team)
  | invitedPlayer (player : Player)
  | cantRemoveOwnerFromTeam
  | removedPlayer (team : Team) (player : Player)
  | leftTeam (team : Team)
deriving Repr, DecidableEq

/-- `TeamCog.get_player_team`: `self._teams.get(self._player_id_to_team_name.get(player.id))`
(a `get` on the key `None` yields `None`). -/
def get_player_team (s : CogState) (player : Player) : Option Team :=
  match dictGet s.player_id_to_team_name player.id with
  | none => none
  | some team_name => dictGet s.teams team_name

/-- `TeamCog.get_team_players`: resolve the team's guild, then map the member
ids through `guild.get_member` and keep the non-`None` results. -/
def get_team_players (env : BotEnv) (team : Team) : Except TeamError (List Player) :=
  match env.get_guild team.guild_id with
  | none => .error (.guildNotFound team.guild_id)
  | some team_guild => .ok (team.players.filterMap team_guild.get_member)

/-- `TeamCog.get_team_owned_by_player`. -/
def get_team_owned_by_player (s : CogState) (player : Player) : Except TeamError Team :=
  match get_player_team s player with
  | none => .error (.playerNotOnATeam player.id)
  | some player_team =>
    if player_team.is_owned_by player then .ok player_team
    else .error (.playerNotTeamOwner player.id player_team.name)

/-- `TeamCog.team_create`: the already-on-a-team check precedes the
name-collision check; on success the new team is registered and the owner
indexed. -/
def team_create (s : CogState) (user : Player) (guild_id : Nat) (team_name : String) :
    Except TeamError (CogState × CmdReply) :=
  match get_player_team s user with
  | some current_team => .ok (s, .alreadyOnATeam current_team)
  | none =>
    if (dictGet s.teams team_name).isSome then
      .ok (s, .teamAlreadyExists team_name)
    else
      .ok ({ teams := dictSet s.teams team_name (Team.make team_name user.id guild_id [] 0),
             player_id_to_team_name := dictSet s.player_id_to_team_name user.id team_name },
           .teamCreated (Team.make team_name user.id guild_id [] 0))

/-- `TeamCog.team_disband`: pop the index entry of every member that resolves
in the team's guild, then delete the team. -/
def team_disband (env : BotEnv) (s : CogState) (user : Player) :
    Except TeamError (CogState × CmdReply) :=
  match get_team_owned_by_player s user with
  | .error (.playerNotOnATeam _) => .ok (s, .playerNotOnATeam)
  | .error (.playerNotTeamOwner _ _) => .ok (s, .playerNotTeamOwner)
  | .error e => .error e
  | .ok owner_team =>
    match get_team_players env owner_team with
    | .error e => .error e
    | .ok team_players =>
      .ok ({ teams := dictPop s.teams owner_team.name,
             player_id_to_team_name :=
               team_players.foldl (fun d team_player => dictPop d team_player.id)
                 s.player_id_to_team_name },
           .teamDisbanded owner_team)

/-- `TeamCog.team_transfer_ownership`. -/
def team_transfer_ownership (s : CogState) (user : Player) (new_owner : Player) :
    Except TeamError (CogState × CmdReply) :=
  match get_team_owned_by_player s user with
  | .error (.playerNotOnATeam _) => .ok (s, .playerNotOnATeam)
  | .error (.playerNotTeamOwner _ _) => .ok (s, .playerNotTeamOwner)
  | .error e => .error e
  | .ok owner_team =>
    match owner_team.transfer_ownership new_owner with
    | .error (.playerNotOnTheTeam _ _) => .ok (s, .playerNotOnTheTeam new_owner)
    | .error (.playerAlreadyIsOwner _ _) => .ok (s, .playerAlreadyIsOwner)
    | .error e => .error e
    | .ok t1 =>
      .ok ({ s with teams := dictUpdate s.teams owner_team.name t1 },
           .ownershipTransferred t1 new_owner)

/-- `TeamCog.team_invite`: on success the invitee is appended to the team and
indexed; the invitee's own current team is never consulted. -/
def team_invite (s : CogState) (user : Player) (player : Player) :
    Except TeamError (CogState × CmdReply) :=
  match get_team_owned_by_player s user with
  | .error (.playerNotOnATeam _) => .ok (s, .playerNotOnATeam)
  | .error (.playerNotTeamOwner _ _) => .ok (s, .playerNotTeamOwner)
  | .error e => .error e
  | .ok owner_team =>
    match owner_team.add_player player with
    | .error (.playerAlreadyOnTheTeam _ _) =>
      .ok (s, .playerAlreadyOnTheTeam player owner_team)
    | .error .cannotAddBotToTeam => .ok (s, .tryingToAddBotToTeam)
    | .error e => .error e
    | .ok t1 =>
      .ok ({ teams := dictUpdate s.teams owner_team.name t1,
             player_id_to_team_name :=
               dictSet s.player_id_to_team_name player.id owner_team.name },
           .invitedPlayer player)

/-- `TeamCog.team_remove`. -/
def team_remove (s : CogState) (user : Player) (player : Player) :
    Except TeamError (CogState × CmdReply) :=
  match get_team_owned_by_player s user with
  | .error (.playerNotOnATeam _) => .ok (s, .playerNotOnATeam)
  | .error (.playerNotTeamOwner _ _) => .ok (s, .playerNotTeamOwner)
  | .error e => .error e
  | .ok owner_team =>
    match owner_team.remove_player player with
    | .error (.playerNotOnTheTeam _ _) => .ok (s, .playerNotOnTheTeam player)
    | .error .cannotRemoveTeamOwner => .ok (s, .cantRemoveOwnerFromTeam)
    | .error e => .error e
    | .ok t1 =>
      .ok ({ teams := dictUpdate s.teams owner_team.name t1,
             player_id_to_team_name := dictPop s.player_id_to_team_name player.id },
           .removedPlayer t1 player)

/-- Lines 652 to 660 of `src/cogs/team.py` (the shared tail of `team_leave`):
`remove_player` with `CannotRemoveTeamOwner` silently swallowed, then the
leaver's index entry is popped. -/
def finish_leave (s : CogState) (current_team : Team) (user : Player) :
    Except TeamError (CogState × CmdReply) :=
  match current_team.remove_player user with
  | .error .cannotRemoveTeamOwner =>
    .ok ({ s with player_id_to_team_name := dictPop s.player_id_to_team_name user.id },
         .leftTeam current_team)
  | .error e => .error e
  | .ok t1 =>
    .ok ({ teams := dictUpdate s.teams t1.name t1,
           player_id_to_team_name := dictPop s.player_id_to_team_name user.id },
         .leftTeam t1)

/-- The owner branch of `TeamCog.team_leave`: if at least one other
guild-resolvable member exists, transfer ownership to a randomly chosen one;
otherwise pop the team from the registry. -/
def leave_as_owner (s : CogState) (current_team : Team) (user : Player) (k : Nat)
    (other_players : List Player) : Except TeamError (CogState × CmdReply) :=
  if h : 1 ≤ other_players.length then
    match current_team.transfer_ownership
        (other_players.get ⟨k % other_players.length,
          Nat.mod_lt k (Nat.lt_of_lt_of_le Nat.zero_lt_one h)⟩) with
    | .error e => .error e
    | .ok t1 => finish_leave s t1 user
  else
    finish_leave { s with teams := dictPop s.teams current_team.name } current_team user

/-- `TeamCog.team_leave`, with the `random.choice` seed `k` explicit. -/
def team_leave (env : BotEnv) (s : CogState) (user : Player) (k : Nat) :
    Except TeamError (CogState × CmdReply) :=
  match get_player_team s user with
  | none => .ok (s, .playerNotOnATeam)
  | some current_team =>
    if current_team.is_owned_by user then
      match get_team_players env current_team with
      | .error e => .error e
      | .ok team_players =>
        leave_as_owner s current_team user k
          (team_players.filter (fun team_player => team_player.id ≠ current_team.owner_id))
    else
      finish_leave s current_team user

/-! ### Association-list (Python dict) lemmas -/

theorem dictGet_eq_none_iff [DecidableEq α] {d : List (α × β)} {k : α} :
    dictGet d k = none ↔ ∀ e ∈ d, e.1 ≠ k := by
  induction d with
  | nil => simp [dictGet]
  | cons e d ih =>
    by_cases he : e.1 = k
    · simp [dictGet, he]
    · simp [dictGet, he, ih]

theorem dictGet_mem [DecidableEq α] {d : List (α × β)} {k : α} {v : β}
    (h : dictGet d k = some v) : (k, v) ∈ d := by
  induction d with
  | nil => simp [dictGet] at h
  | cons e d ih =>
    by_cases he : e.1 = k
    · simp [dictGet, he] at h
      subst he h
      exact List.mem_cons_self _ _
    · simp [dictGet, he] at h
      exact List.mem_cons_of_mem _ (ih h)

theorem mem_dictPop [DecidableEq α] {d : List (α × β)} {k : α} {e : α × β}
    (h : e ∈ dictPop d k) : e ∈ d := by
  induction d with
  | nil => simp [dictPop] at h
  | cons e' d ih =>
    by_cases he : e'.1 = k
    · simp [dictPop, he] at h
      exact List.mem_cons_of_mem _ h
    · simp [dictPop, he] at h
      rcases h with h | h
      · exact h ▸ List.mem_cons_self _ _
      · exact List.mem_cons_of_mem _ (ih h)

theorem keys_dictPop_nodup [DecidableEq α] {d : List (α × β)} {k : α}
    (h : (d.map Prod.fst).Nodup) : ((dictPop d k).map Prod.fst).Nodup := by
  induction d with
  | nil => simp [dictPop]
  | cons e d ih =>
    simp only [List.map_cons, List.nodup_cons] at h
    by_cases he : e.1 = k
    · simpa [dictPop, he] using h.2
    · simp only [dictPop, he, if_false, List.map_cons, List.nodup_cons]
      refine ⟨fun hc => h.1 ?_, ih h.2⟩
      rcases List.mem_map.mp hc with ⟨e', he', heq⟩
      exact List.mem_map.mpr ⟨e', mem_dictPop he', heq⟩

theorem dictGet_dictPop_self [DecidableEq α] {d : List (α × β)} {k : α}
    (h : (d.map Prod.fst).Nodup) : dictGet (dictPop d k) k = none := by
  induction d with
  | nil => rfl
  | cons e d ih =>
    simp only [List.map_cons, List.nodup_cons] at h
    by_cases he : e.1 = k
    · simp only [dictPop, he, if_true]
      exact dictGet_eq_none_iff.mpr (fun e' he' hk => h.1 (he ▸ hk ▸ List.mem_map_of_mem _ he'))
    · simpa [dictPop, dictGet, he] using ih h.2

theorem dictGet_dictPop_none [DecidableEq α] {d : List (α × β)} {k k' : α}
    (h : dictGet d k' = none) : dictGet (dictPop d k) k' = none := by
  refine dictGet_eq_none_iff.mpr (fun e he => ?_)
  exact dictGet_eq_none_iff.mp h e (mem_dictPop he)

theorem dictGet_dictSet_self [DecidableEq α] {d : List (α × β)} {k : α} {v : β} :
    dictGet (dictSet d k v) k = some v := by
  induction d with
  | nil => simp [dictSet, dictGet]
  | cons e d ih =>
    by_cases he : e.1 = k
    · simp [dictSet, dictGet, he]
    · simp [dictSet, dictGet, he, ih]

theorem dictGet_dictSet_ne [DecidableEq α] {d : List (α × β)} {k k' : α} {v : β}
    (h : k' ≠ k) : dictGet (dictSet d k v) k' = dictGet d k' := by
  induction d with
  | nil => simp [dictSet, dictGet, Ne.symm h]
  | cons e d ih =>
    by_cases he : e.1 = k
    · simp [dictSet, dictGet, he, Ne.symm h]
    · simp [dictSet, dictGet, he, ih]

theorem dictSet_eq_append [DecidableEq α] {d : List (α × β)} {k : α} {v : β}
    (h : dictGet d k = none) : dictSet d k v = d ++ [(k, v)] := by
  induction d with
  | nil => rfl
  | cons e d ih =>
    rw [dictGet_eq_none_iff] at h
    have he : e.1 ≠ k := h e (List.mem_cons_self _ _)
    simp only [dictSet, he, if_false, List.cons_append, List.cons.injEq, true_and]
    exact ih (dictGet_eq_none_iff.mpr (fun e' he' => h e' (List.mem_cons_of_mem _ he')))

theorem dictPop_append_self [DecidableEq α] {d : List (α × β)} {k : α} {v : β}
    (h : dictGet d k = none) : dictPop (d ++ [(k, v)]) k = d := by
  induction d with
  | nil => simp [dictPop]
  | cons e d ih =>
    rw [dictGet_eq_none_iff] at h
    have he : e.1 ≠ k := h e (List.mem_cons_self _ _)
    simp only [List.cons_append, dictPop, he, if_false, List.cons.injEq, true_and]
    exact ih (dictGet_eq_none_iff.mpr (fun e' he' => h e' (List.mem_cons_of_mem _ he')))

theorem dictGet_dictUpdate_self [DecidableEq α] {d : List (α × β)} {k : α} {v w : β}
    (h : dictGet d k = some v) : dictGet (dictUpdate d k w) k = some w := by
  induction d with
  | nil => simp [dictGet] at h
  | cons e d ih =>
    by_cases he : e.1 = k
    · simp [dictUpdate, dictGet, he]
    · simp only [dictGet, he, if_false] at h
      simp [dictUpdate, dictGet, he, ih h]

theorem dictGet_dictUpdate_ne [DecidableEq α] {d : List (α × β)} {k k' : α} {v : β}
    (h : k' ≠ k) : dictGet (dictUpdate d k v) k' = dictGet d k' := by
  induction d with
  | nil => rfl
  | cons e d ih =>
    by_cases he : e.1 = k
    · simp [dictUpdate, dictGet, he, Ne.symm h]
    · simp [dictUpdate, dictGet, he, ih]

theorem dictUpdate_dictUpdate_restore [DecidableEq α] {d : List (α × β)} {k : α} {v w : β}
    (h : dictGet d k = some v) : dictUpdate (dictUpdate d k w) k v = d := by
  induction d with
  | nil => simp [dictGet] at h
  | cons e d ih =>
    obtain ⟨a, b⟩ := e
    by_cases he : a = k
    · subst he
      simp [dictGet] at h
      simp [dictUpdate, h]
    · simp only [dictGet, he, if_false] at h
      simp [dictUpdate, he, ih h]

theorem mem_dictUpdate [DecidableEq α] {d : List (α × β)} {k : α} {v : β} {e : α × β}
    (h : e ∈ dictUpdate d k v) : e = (k, v) ∨ e ∈ d := by
  induction d with
  | nil => simp [dictUpdate] at h
  | cons e' d ih =>
    by_cases he : e'.1 = k
    · simp only [dictUpdate, he, if_true, List.mem_cons] at h
      rcases h with h | h
      · exact Or.inl h
      · exact Or.inr (List.mem_cons_of_mem _ h)
    · simp only [dictUpdate, he, if_false, List.mem_cons] at h
      rcases h with h | h
      · exact Or.inr (h ▸ List.mem_cons_self _ _)
      · rcases ih h with h | h
        · exact Or.inl h
        · exact Or.inr (List.mem_cons_of_mem _ h)

theorem mem_dictSet [DecidableEq α] {d : List (α × β)} {k : α} {v : β} {e : α × β}
    (h : e ∈ dictSet d k v) : e = (k, v) ∨ e ∈ d := by
  induction d with
  | nil => simpa [dictSet] using h
  | cons e' d ih =>
    by_cases he : e'.1 = k
    · simp only [dictSet, he, if_true, List.mem_cons] at h
      rcases h with h | h
      · exact Or.inl h
      · exact Or.inr (List.mem_cons_of_mem _ h)
    · simp only [dictSet, he, if_false, List.mem_cons] at h
      rcases h with h | h
      · exact Or.inr (h ▸ List.mem_cons_self _ _)
      · rcases ih h with h | h
        · exact Or.inl h
        · exact Or.inr (List.mem_cons_of_mem _ h)

theorem dictGet_foldl_dictPop_none [DecidableEq α] {l : List γ} {f : γ → α}
    {d : List (α × β)} {k : α} (h : dictGet d k = none) :
    dictGet (l.foldl (fun d' q => dictPop d' (f q)) d) k = none := by
  induction l generalizing d with
  | nil => exact h
  | cons q l ih => exact ih (dictGet_dictPop_none h)

theorem keys_foldl_dictPop_nodup [DecidableEq α] {l : List γ} {f : γ → α}
    {d : List (α × β)} (h : (d.map Prod.fst).Nodup) :
    ((l.foldl (fun d' q => dictPop d' (f q)) d).map Prod.fst).Nodup := by
  induction l generalizing d with
  | nil => exact h
  | cons q l ih => exact ih (keys_dictPop_nodup h)

theorem dictGet_foldl_dictPop_of_mem [DecidableEq α] {l : List γ} {f : γ → α}
    {d : List (α × β)} {q : γ} (hnd : (d.map Prod.fst).Nodup) (hq : q ∈ l) :
    dictGet (l.foldl (fun d' r => dictPop d' (f r)) d) (f q) = none := by
  induction l generalizing d with
  | nil => simp at hq
  | cons r l ih =>
    simp only [List.foldl_cons]
    rcases List.mem_cons.mp hq with rfl | hq
    · exact dictGet_foldl_dictPop_none (dictGet_dictPop_self hnd)
    · exact ih (keys_dictPop_nodup hnd) hq

/-! ### Well-formedness predicates and reachability -/

/-- The per-team invariant of the spec: the owner is a member and the member
list has no duplicate ids. -/
def TeamOK (t : Team) : Prop := t.owner_id ∈ t.players ∧ t.players.Nodup

instance (t : Team) : Decidable (TeamOK t) := by unfold TeamOK; infer_instance

/-- Every team registered in the state satisfies `TeamOK`. -/
def teamsOK (s : CogState) : Prop := ∀ e ∈ s.teams, TeamOK e.2

instance (s : CogState) : Decidable (teamsOK s) := by unfold teamsOK; infer_instance

/-- The association lists model genuine Python dicts (no duplicate keys) and
each team is registered under its own name with its invariant intact. -/
def StateWF (s : CogState) : Prop :=
  (s.teams.map Prod.fst).Nodup ∧ (s.player_id_to_team_name.map Prod.fst).Nodup ∧
  (∀ e ∈ s.teams, e.2.name = e.1) ∧ teamsOK s

instance (s : CogState) : Decidable (StateWF s) := by unfold StateWF; infer_instance

/-- States reachable from the empty registry through the public commands
(create, disband, transfer, invite, remove, leave), over every Discord
environment and every `random.choice` outcome. A command that raises an
uncaught exception (`.error`) performs no state transition. -/
inductive Reachable : CogState → Prop where
  | empty : Reachable ⟨[], []⟩
  | create {s s' : CogState} {u : Player} {gid : Nat} {n : String} {r : CmdReply} :
      Reachable s → team_create s u gid n = .ok (s', r) → Reachable s'
  | disband {env : BotEnv} {s s' : CogState} {u : Player} {r : CmdReply} :
      Reachable s → team_disband env s u = .ok (s', r) → Reachable s'
  | transfer {s s' : CogState} {u p : Player} {r : CmdReply} :
      Reachable s → team_transfer_ownership s u p = .ok (s', r) → Reachable s'
  | invite {s s' : CogState} {u p : Player} {r : CmdReply} :
      Reachable s → team_invite s u p = .ok (s', r) → Reachable s'
  | remove {s s' : CogState} {u p : Player} {r : CmdReply} :
      Reachable s → team_remove s u p = .ok (s', r) → Reachable s'
  | leave {env : BotEnv} {s s' : CogState} {u : Player} {k : Nat} {r : CmdReply} :
      Reachable s → team_leave env s u k = .ok (s', r) → Reachable s'

/-! ### Inversion lemmas for the `Team` methods -/

theorem Team.add_player_ok {t : Team} {p : Player} {t1 : Team}
    (h : t.add_player p = .ok t1) :
    p.id ∉ t.players ∧ t1 = { t with players := t.players ++ [p.id] } := by
  unfold Team.add_player at h
  split at h
  · cases h
  · split at h
    · cases h
    · exact ⟨by assumption, (Except.ok.injEq .. ▸ h).symm⟩

theorem Team.remove_player_ok {t : Team} {p : Player} {t1 : Team}
    (h : t.remove_player p = .ok t1) :
    p.id ∈ t.players ∧ p.id ≠ t.owner_id ∧
      t1 = { t with players := t.players.erase p.id } := by
  unfold Team.remove_player at h
  split at h
  · cases h
  · split at h
    · cases h
    · exact ⟨not_not.mp (by assumption), by assumption, (Except.ok.injEq .. ▸ h).symm⟩

theorem Team.transfer_ownership_ok {t : Team} {p : Player} {t1 : Team}
    (h : t.transfer_ownership p = .ok t1) :
    p.id ∈ t.players ∧ t.owner_id ≠ p.id ∧ t1 = { t with owner_id := p.id } := by
  unfold Team.transfer_ownership at h
  split at h
  · cases h
  · split at h
    · cases h
    · refine ⟨not_not.mp (by assumption), ?_, (Except.ok.injEq .. ▸ h).symm⟩
      have hb : ¬ (t.is_owned_by p = true) := by assumption
      simpa [Team.is_owned_by] using hb

theorem TeamOK.add {t : Team} {p : Player} {t1 : Team} (ht : TeamOK t)
    (h : t.add_player p = .ok t1) : TeamOK t1 := by
  obtain ⟨hnm, rfl⟩ := Team.add_player_ok h
  exact ⟨List.mem_append_left _ ht.1, by simp [List.nodup_append, ht.2, hnm]⟩

theorem TeamOK.remove {t : Team} {p : Player} {t1 : Team} (ht : TeamOK t)
    (h : t.remove_player p = .ok t1) : TeamOK t1 := by
  obtain ⟨hm, hne, rfl⟩ := Team.remove_player_ok h
  exact ⟨(List.mem_erase_of_ne (Ne.symm hne)).mpr ht.1, ht.2.erase _⟩

theorem TeamOK.transfer {t : Team} {p : Player} {t1 : Team} (ht : TeamOK t)
    (h : t.transfer_ownership p = .ok t1) : TeamOK t1 := by
  obtain ⟨hm, hne, rfl⟩ := Team.transfer_ownership_ok h
  exact ⟨hm, ht.2⟩

/-! ### Inversion lemmas for the registry lookups -/

theorem get_player_team_some {s : CogState} {p : Player} {t : Team}
    (h : get_player_team s p = some t) :
    ∃ n, dictGet s.player_id_to_team_name p.id = some n ∧ dictGet s.teams n = some t := by
  unfold get_player_team at h
  split at h
  · cases h
  · exact ⟨_, by assumption, h⟩

theorem get_player_team_mem {s : CogState} {p : Player} {t : Team}
    (h : get_player_team s p = some t) : ∃ n, (n, t) ∈ s.teams := by
  obtain ⟨n, _, hg⟩ := get_player_team_some h
  exact ⟨n, dictGet_mem hg⟩

theorem teamsOK_of_get_player_team {s : CogState} {p : Player} {t : Team}
    (hok : teamsOK s) (h : get_player_team s p = some t) : TeamOK t := by
  obtain ⟨n, hm⟩ := get_player_team_mem h
  exact hok (n, t) hm

theorem get_team_owned_by_player_ok {s : CogState} {p : Player} {t : Team}
    (h : get_team_owned_by_player s p = .ok t) :
    get_player_team s p = some t ∧ t.owner_id = p.id := by
  unfold get_team_owned_by_player at h
  split at h
  · cases h
  · rename_i player_team hsome
    split at h
    · rename_i hb
      cases h
      exact ⟨hsome, by simpa [Team.is_owned_by] using hb⟩
    · cases h

/-! ### Preservation of the per-team invariant by every command -/

theorem teamsOK_team_create {s s' : CogState} {u : Player} {gid : Nat} {n : String}
    {r : CmdReply} (hok : teamsOK s) (h : team_create s u gid n = .ok (s', r)) :
    teamsOK s' := by
  unfold team_create at h
  split at h
  · cases h; exact hok
  · split at h
    · cases h; exact hok
    · cases h
      intro e he
      rcases mem_dictSet he with rfl | he
      · exact ⟨by simp [Team.make], by simp [Team.make]⟩
      · exact hok e he

theorem teamsOK_team_disband {env : BotEnv} {s s' : CogState} {u : Player} {r : CmdReply}
    (hok : teamsOK s) (h : team_disband env s u = .ok (s', r)) : teamsOK s' := by
  unfold team_disband at h
  split at h
  · cases h; exact hok
  · cases h; exact hok
  · cases h
  · split at h
    · cases h
    · cases h
      intro e he
      exact hok e (mem_dictPop he)

theorem teamsOK_team_transfer {s s' : CogState} {u p : Player} {r : CmdReply}
    (hok : teamsOK s) (h : team_transfer_ownership s u p = .ok (s', r)) : teamsOK s' := by
  unfold team_transfer_ownership at h
  split at h
  · cases h; exact hok
  · cases h; exact hok
  · cases h
  · rename_i owner_team howned
    split at h
    · cases h; exact hok
    · cases h; exact hok
    · cases h
    · rename_i t1 htr
      cases h
      intro e he
      rcases mem_dictUpdate he with rfl | he
      · exact TeamOK.transfer
          (teamsOK_of_get_player_team hok (get_team_owned_by_player_ok howned).1) htr
      · exact hok e he

theorem teamsOK_team_invite {s s' : CogState} {u p : Player} {r : CmdReply}
    (hok : teamsOK s) (h : team_invite s u p = .ok (s', r)) : teamsOK s' := by
  unfold team_invite at h
  split at h
  · cases h; exact hok
  · cases h; exact hok
  · cases h
  · rename_i owner_team howned
    split at h
    · cases h; exact hok
    · cases h; exact hok
    · cases h
    · rename_i t1 hadd
      cases h
      intro e he
      rcases mem_dictUpdate he with rfl | he
      · exact TeamOK.add
          (teamsOK_of_get_player_team hok (get_team_owned_by_player_ok howned).1) hadd
      · exact hok e he

theorem teamsOK_team_remove {s s' : CogState} {u p : Player} {r : CmdReply}
    (hok : teamsOK s) (h : team_remove s u p = .ok (s', r)) : teamsOK s' := by
  unfold team_remove at h
  split at h
  · cases h; exact hok
  · cases h; exact hok
  · cases h
  · rename_i owner_team howned
    split at h
    · cases h; exact hok
    · cases h; exact hok
    · cases h
    · rename_i t1 hrm
      cases h
      intro e he
      rcases mem_dictUpdate he with rfl | he
      · exact TeamOK.remove
          (teamsOK_of_get_player_team hok (get_team_owned_by_player_ok howned).1) hrm
      · exact hok e he

theorem teamsOK_finish_leave {s s' : CogState} {t : Team} {u : Player} {r : CmdReply}
    (hok : teamsOK s) (ht : TeamOK t) (h : finish_leave s t u = .ok (s', r)) :
    teamsOK s' := by
  unfold finish_leave at h
  split at h
  · cases h; exact hok
  · cases h
  · rename_i t1 hrm
    cases h
    intro e he
    rcases mem_dictUpdate he with rfl | he
    · exact TeamOK.remove ht hrm
    · exact hok e he

theorem teamsOK_team_leave {env : BotEnv} {s s' : CogState} {u : Player} {k : Nat}
    {r : CmdReply} (hok : teamsOK s) (h : team_leave env s u k = .ok (s', r)) :
    teamsOK s' := by
  unfold team_leave at h
  split at h
  · cases h; exact hok
  · rename_i current_team hsome
    have htok : TeamOK current_team := teamsOK_of_get_player_team hok hsome
    split at h
    · split at h
      · cases h
      · unfold leave_as_owner at h
        split at h
        · split at h
          · cases h
          · rename_i t1 htr
            exact teamsOK_finish_leave hok (TeamOK.transfer htok htr) h
        · refine teamsOK_finish_leave (fun e he => hok e (mem_dictPop he)) htok h
    · exact teamsOK_finish_leave hok htok h

/-- A concrete reachability step used to witness the invariant theorem:
creating team "A" from the empty registry. -/
theorem reachable_after_first_create :
    team_create ⟨[], []⟩ ⟨1, false⟩ 9 "A" =
      .ok (⟨[("A", Team.make "A" 1 9 [] 0)], [(1, "A")]⟩,
           .teamCreated (Team.make "A" 1 9 [] 0)) := rfl

/-- C1: for every registry state reachable through the public commands
(create, invite, remove, transfer, leave, disband), every registered team's
`owner_id` is an element of its `players` list and `players` contains no
duplicate identifiers. -/
theorem C1_registry_invariant {s : CogState} (h : Reachable s) :
    ∀ e ∈ s.teams, e.2.owner_id ∈ e.2.players ∧ e.2.players.Nodup := by
  induction h with
  | empty => intro e he; simp at he
  | create _ hs ih => exact teamsOK_team_create ih hs
  | disband _ hs ih => exact teamsOK_team_disband ih hs
  | transfer _ hs ih => exact teamsOK_team_transfer ih hs
  | invite _ hs ih => exact teamsOK_team_invite ih hs
  | remove _ hs ih => exact teamsOK_team_remove ih hs
  | leave _ hs ih => exact teamsOK_team_leave ih hs

/-- Witness for C1: the invariant instantiated at the concrete reachable state
holding exactly the team created by `reachable_after_first_create`. -/
theorem C1_registry_invariant_witness :
    (Team.make "A" 1 9 [] 0).owner_id ∈ (Team.make "A" 1 9 [] 0).players ∧
    (Team.make "A" 1 9 [] 0).players.Nodup :=
  C1_registry_invariant
    (Reachable.create Reachable.empty reachable_after_first_create)
    ("A", Team.make "A" 1 9 [] 0) (by simp)

/-- C7: for a team whose documented invariant `owner_id ∈ players` holds,
`transfer_ownership` fails with `PlayerNotOnTheTeam` when the candidate is not
a member, fails with `PlayerAlreadyIsOwner` when the candidate is the current
owner, and otherwise succeeds reassigning only `owner_id`, leaving `players`
and every other field unchanged; this holds for the `src/cogs/team.py`
variant (first three clauses) and for the `src/models/team.py` variant (last
three clauses) alike. -/
theorem C7_transfer_ownership_cases (t : Team) (p : Player) (mt : Models.Team)
    (nid : Nat) (howner : t.owner_id ∈ t.players) (mhowner : mt.owner_id ∈ mt.players) :
    (p.id ∉ t.players → t.transfer_ownership p = .error (.playerNotOnTheTeam p.id t.name)) ∧
    (p.id = t.owner_id → t.transfer_ownership p = .error (.playerAlreadyIsOwner p.id t.name)) ∧
    (p.id ∈ t.players → p.id ≠ t.owner_id →
      t.transfer_ownership p = .ok { t with owner_id := p.id }) ∧
    (nid ∉ mt.players → mt.transfer_ownership nid = .error (.playerNotOnTheTeam nid mt.name)) ∧
    (nid = mt.owner_id → mt.transfer_ownership nid = .error (.playerAlreadyIsOwner nid mt.name)) ∧
    (nid ∈ mt.players → nid ≠ mt.owner_id →
      mt.transfer_ownership nid = .ok { mt with owner_id := nid }) := by
  refine ⟨fun hnm => ?_, fun heq => ?_, fun hm hne => ?_,
          fun hnm => ?_, fun heq => ?_, fun hm hne => ?_⟩
  · simp [Team.transfer_ownership, hnm]
  · simp [Team.transfer_ownership, Team.is_owned_by, heq, howner]
  · simp [Team.transfer_ownership, Team.is_owned_by, hm, Ne.symm hne]
  · simp [Models.Team.transfer_ownership, hnm]
  · simp [Models.Team.transfer_ownership, heq, mhowner]
  · simp [Models.Team.transfer_ownership, hm, Ne.symm hne]

/-- Witness for C7 at a concrete two-member team in both variants. -/
theorem C7_transfer_ownership_cases_witness :
    Team.transfer_ownership ⟨"A", 1, 9, [1, 2], 0⟩ ⟨2, false⟩ =
      .ok ⟨"A", 2, 9, [1, 2], 0⟩ ∧
    Models.Team.transfer_ownership ⟨"A", 1, 9, [1, 2], 0⟩ 2 =
      .ok ⟨"A", 2, 9, [1, 2], 0⟩ := by
  have h := C7_transfer_ownership_cases ⟨"A", 1, 9, [1, 2], 0⟩ ⟨2, false⟩
    ⟨"A", 1, 9, [1, 2], 0⟩ 2 (by decide) (by decide)
  exact ⟨h.2.2.1 (by decide) (by decide), h.2.2.2.2.2 (by decide) (by decide)⟩

/-- C8: constructing a `src/models/team.py` `Team` whose initial players list
already contains `owner_id` raises `PlayerAlreadyOnTheTeam` from
`__post_init__`; when `owner_id` is absent, construction succeeds and appends
`owner_id` to the member list. -/
theorem C8_mkTeam_post_init (name : String) (oid gid : Nat) (players : List Nat)
    (points : Nat) :
    (oid ∈ players → Models.mkTeam name oid gid players points =
      .error (.playerAlreadyOnTheTeam oid name)) ∧
    (oid ∉ players → Models.mkTeam name oid gid players points =
      .ok ⟨name, oid, gid, players ++ [oid], points⟩) := by
  constructor <;> intro h <;> simp [Models.mkTeam, Models.Team.add_player, h]

/-- Witness for C8 at concrete inputs: owner 1 in the list fails, owner 1
absent succeeds with 1 appended. -/
theorem C8_mkTeam_post_init_witness :
    Models.mkTeam "M" 1 9 [1, 2] 0 = .error (.playerAlreadyOnTheTeam 1 "M") ∧
    Models.mkTeam "M" 1 9 [2] 0 = .ok ⟨"M", 1, 9, [2, 1], 0⟩ :=
  ⟨(C8_mkTeam_post_init "M" 1 9 [1, 2] 0).1 (by decide),
   (C8_mkTeam_post_init "M" 1 9 [2] 0).2 (by decide)⟩

/-- C9: in the `src/cogs/team.py` `Team.add_player`, the membership check
precedes the bot check: a player whose id is already on the team raises
`PlayerAlreadyOnTheTeam` regardless of their `bot` flag, and
`CannotAddBotToTeam` is raised exactly for bots whose id is absent. -/
theorem C9_add_player_check_order (t : Team) (p : Player) :
    (p.id ∈ t.players → t.add_player p = .error (.playerAlreadyOnTheTeam p.id t.name)) ∧
    (p.id ∉ t.players → p.bot = true → t.add_player p = .error .cannotAddBotToTeam) := by
  refine ⟨fun hm => ?_, fun hnm hb => ?_⟩
  · simp [Team.add_player, hm]
  · simp [Team.add_player, hnm, hb]

/-- Witness for C9: a bot already on the team raises `PlayerAlreadyOnTheTeam`,
a bot not on the team raises `CannotAddBotToTeam`. -/
theorem C9_add_player_check_order_witness :
    Team.add_player ⟨"A", 1, 9, [1, 5], 0⟩ ⟨5, true⟩ =
      .error (.playerAlreadyOnTheTeam 5 "A") ∧
    Team.add_player ⟨"A", 1, 9, [1, 5], 0⟩ ⟨6, true⟩ =
      .error .cannotAddBotToTeam :=
  ⟨(C9_add_player_check_order ⟨"A", 1, 9, [1, 5], 0⟩ ⟨5, true⟩).1 (by decide),
   (C9_add_player_check_order ⟨"A", 1, 9, [1, 5], 0⟩ ⟨6, true⟩).2 (by decide) rfl⟩

/-- Counterexample to C5 as stated: the registry contains a team named "A",
yet a `team_create` call with that name by the owner of "A" fails with the
already-on-a-team reply rather than `TeamAlreadyExists`, because the
caller-on-a-team check precedes the name-collision check. -/
theorem C5_duplicate_name_counterexample :
    (dictGet (CogState.mk [("A", Team.make "A" 1 9 [] 0)] [(1, "A")]).teams "A").isSome
      = true ∧
    team_create ⟨[("A", Team.make "A" 1 9 [] 0)], [(1, "A")]⟩ ⟨1, false⟩ 9 "A" =
      .ok (⟨[("A", Team.make "A" 1 9 [] 0)], [(1, "A")]⟩,
           .alreadyOnATeam (Team.make "A" 1 9 [] 0)) ∧
    CmdReply.alreadyOnATeam (Team.make "A" 1 9 [] 0) ≠ .teamAlreadyExists "A" :=
  ⟨rfl, rfl, by decide⟩

/-- C5 amended: when the registry already contains a team under the requested
name and the calling player is not on any team, `team_create` fails with
`TeamAlreadyExists` and returns the state exactly as it was; a caller already
on a team fails earlier with the already-on-a-team reply, likewise leaving the
state untouched. -/
theorem C5_duplicate_name_amended (s : CogState) (u : Player) (gid : Nat)
    (team_name : String) :
    (get_player_team s u = none → (dictGet s.teams team_name).isSome = true →
      team_create s u gid team_name = .ok (s, .teamAlreadyExists team_name)) ∧
    (∀ current_team, get_player_team s u = some current_team →
      team_create s u gid team_name = .ok (s, .alreadyOnATeam current_team)) := by
  constructor
  · intro hfree hname
    simp [team_create, hfree, hname]
  · intro current_team hcur
    simp [team_create, hcur]

/-- Witness for C5 amended: a second player creating "A" while team "A"
exists is refused with `TeamAlreadyExists` and the state is unchanged. -/
theorem C5_duplicate_name_amended_witness :
    team_create ⟨[("A", Team.make "A" 1 9 [] 0)], [(1, "A")]⟩ ⟨2, false⟩ 9 "A" =
      .ok (⟨[("A", Team.make "A" 1 9 [] 0)], [(1, "A")]⟩, .teamAlreadyExists "A") :=
  (C5_duplicate_name_amended ⟨[("A", Team.make "A" 1 9 [] 0)], [(1, "A")]⟩
    ⟨2, false⟩ 9 "A").1 rfl rfl

theorem Guild.get_member_id {g : Guild} {pid : Nat} {p : Player}
    (h : g.get_member pid = some p) : p.id = pid := by
  have := List.find?_some h
  simpa using this

/-- Counterexample to C2 as stated: disbanding team "A" (players 1 and 2)
succeeds while member 2 is no longer resolvable in guild 9, and 2's
`playerToTeam` entry survives the disband. -/
theorem C2_disband_counterexample :
    team_disband ⟨[⟨9, [⟨1, false⟩]⟩]⟩
        ⟨[("A", ⟨"A", 1, 9, [1, 2], 0⟩)], [(1, "A"), (2, "A")]⟩ ⟨1, false⟩ =
      .ok (⟨[], [(2, "A")]⟩, .teamDisbanded ⟨"A", 1, 9, [1, 2], 0⟩) ∧
    (2 : Nat) ∈ (Team.mk "A" 1 9 [1, 2] 0).players ∧
    dictGet ([(2, "A")] : List (Nat × String)) 2 = some "A" :=
  ⟨rfl, by decide, rfl⟩

/-- C2 amended: a successful `team_disband` deletes the team from the
registry and removes the `playerToTeam` entry of every member that still
resolves to a member of the team's guild (entries of unresolvable members are
left behind); the removed team is reported back. -/
theorem C2_disband_amended (env : BotEnv) (s s' : CogState) (u : Player) (t : Team)
    (hwf : StateWF s) (h : team_disband env s u = .ok (s', .teamDisbanded t)) :
    dictGet s'.teams t.name = none ∧
    ∀ pid ∈ t.players, ∀ g p, env.get_guild t.guild_id = some g →
      g.get_member pid = some p → dictGet s'.player_id_to_team_name pid = none := by
  unfold team_disband at h
  split at h
  · simp at h
  · simp at h
  · cases h
  · rename_i owner_team howned
    split at h
    · cases h
    · rename_i team_players hgtp
      simp only [Except.ok.injEq, Prod.mk.injEq, CmdReply.teamDisbanded.injEq] at h
      obtain ⟨h1, h2⟩ := h
      subst h1 h2
      refine ⟨dictGet_dictPop_self hwf.1, ?_⟩
      intro pid hpid g p hg hgm
      unfold get_team_players at hgtp
      split at hgtp
      · cases hgtp
      · rename_i g' hg'
        rw [hg] at hg'
        cases hg'
        simp only [Except.ok.injEq] at hgtp
        subst hgtp
        have hp : p ∈ owner_team.players.filterMap g.get_member :=
          List.mem_filterMap.mpr ⟨pid, hpid, hgm⟩
        have hnone : dictGet
            ((owner_team.players.filterMap g.get_member).foldl
              (fun d team_player => dictPop d team_player.id) s.player_id_to_team_name)
            p.id = none :=
          dictGet_foldl_dictPop_of_mem hwf.2.1 hp
        rwa [Guild.get_member_id hgm] at hnone

/-- Witness for C2 amended: disbanding team "A" with both members resolvable
deletes the team and clears both index entries. -/
theorem C2_disband_amended_witness :
    dictGet (CogState.mk [] []).teams "A" = none ∧
    dictGet (CogState.mk [] []).player_id_to_team_name 2 = none := by
  have h := C2_disband_amended ⟨[⟨9, [⟨1, false⟩, ⟨2, false⟩]⟩]⟩
    ⟨[("A", ⟨"A", 1, 9, [1, 2], 0⟩)], [(1, "A"), (2, "A")]⟩ ⟨[], []⟩
    ⟨1, false⟩ ⟨"A", 1, 9, [1, 2], 0⟩ (by decide) rfl
  exact ⟨h.1, h.2 2 (by decide) ⟨9, [⟨1, false⟩, ⟨2, false⟩]⟩ ⟨2, false⟩ rfl rfl⟩

/-- C3: when a registered team's players list is exactly its owner, a
`team_leave` by that owner (in an environment where the team's guild
resolves) deletes the team from the registry and pops the owner's index
entry, so a subsequent `get_player_team` for the owner returns `none`. -/
theorem C3_leave_owner_only_team (env : BotEnv) (s : CogState) (u : Player) (k : Nat)
    (t : Team) (g : Guild) (hwf : StateWF s)
    (ht : get_player_team s u = some t)
    (howner : t.owner_id = u.id)
    (hplayers : t.players = [u.id])
    (hg : env.get_guild t.guild_id = some g) :
    team_leave env s u k =
      .ok (⟨dictPop s.teams t.name, dictPop s.player_id_to_team_name u.id⟩, .leftTeam t) ∧
    dictGet (dictPop s.teams t.name) t.name = none ∧
    get_player_team ⟨dictPop s.teams t.name, dictPop s.player_id_to_team_name u.id⟩ u
      = none := by
  refine ⟨?_, dictGet_dictPop_self hwf.1, ?_⟩
  · have hnotmem : ∀ p : Player, p ∈ t.players.filterMap g.get_member → p.id = u.id := by
      intro p hp
      rcases List.mem_filterMap.mp hp with ⟨pid, hpid, hgm⟩
      rw [hplayers] at hpid
      simp at hpid
      rw [Guild.get_member_id hgm, hpid]
    have hfilter :
        (t.players.filterMap g.get_member).filter
          (fun team_player => team_player.id ≠ u.id) = [] := by
      rw [List.filter_eq_nil_iff]
      intro p hp
      simpa using hnotmem p hp
    simp only [team_leave, ht, Team.is_owned_by, howner, decide_True, if_true,
      get_team_players, hg, hfilter, leave_as_owner]
    simp [finish_leave, Team.remove_player, hplayers, howner]
  · simp [get_player_team, dictGet_dictPop_self hwf.2.1]

/-- Witness for C3: owner 1 leaves the one-member team "A"; the team is gone
and the owner no longer maps to a team. -/
theorem C3_leave_owner_only_team_witness :
    team_leave ⟨[⟨9, [⟨1, false⟩]⟩]⟩ ⟨[("A", ⟨"A", 1, 9, [1], 0⟩)], [(1, "A")]⟩
        ⟨1, false⟩ 0 =
      .ok (⟨dictPop ([("A", ⟨"A", 1, 9, [1], 0⟩)] : List (String × Team)) "A",
            dictPop ([(1, "A")] : List (Nat × String)) 1⟩,
           .leftTeam ⟨"A", 1, 9, [1], 0⟩) ∧
    dictGet (dictPop ([("A", ⟨"A", 1, 9, [1], 0⟩)] : List (String × Team)) "A") "A"
      = none ∧
    get_player_team ⟨dictPop ([("A", ⟨"A", 1, 9, [1], 0⟩)] : List (String × Team)) "A",
        dictPop ([(1, "A")] : List (Nat × String)) 1⟩ ⟨1, false⟩ = none :=
  C3_leave_owner_only_team ⟨[⟨9, [⟨1, false⟩]⟩]⟩
    ⟨[("A", ⟨"A", 1, 9, [1], 0⟩)], [(1, "A")]⟩ ⟨1, false⟩ 0
    ⟨"A", 1, 9, [1], 0⟩ ⟨9, [⟨1, false⟩]⟩ (by decide) rfl rfl rfl rfl

theorem dictGet_teams_name_of_get_player_team {s : CogState} {u : Player} {t : Team}
    (hwf : StateWF s) (h : get_player_team s u = some t) :
    dictGet s.teams t.name = some t := by
  obtain ⟨n, hidx, hg⟩ := get_player_team_some h
  have hn : t.name = n := hwf.2.2.1 (n, t) (dictGet_mem hg)
  rwa [hn]

/-- Counterexample to C4 as stated: team "A" has exactly the two members 1
(the owner) and 2, but 2 no longer resolves in guild 9; when owner 1 leaves,
the team is deleted from the registry instead of ownership passing to 2. -/
theorem C4_leave_two_member_counterexample :
    team_leave ⟨[⟨9, [⟨1, false⟩]⟩]⟩
        ⟨[("A", ⟨"A", 1, 9, [1, 2], 0⟩)], [(1, "A"), (2, "A")]⟩ ⟨1, false⟩ 0 =
      .ok (⟨[], [(2, "A")]⟩, .leftTeam ⟨"A", 1, 9, [1, 2], 0⟩) ∧
    dictGet ([] : List (String × Team)) "A" = none :=
  ⟨rfl, rfl⟩

/-- C4 amended: for a two-member team whose remaining member still resolves
in the team's guild, a `team_leave` by the owner reassigns ownership to that
member, keeps the team registered (under its name, now with owner `m` and the
leaver erased from `players`), and pops the leaver's index entry. -/
theorem C4_leave_two_member_amended (env : BotEnv) (s : CogState) (u pm : Player)
    (k m : Nat) (t : Team) (g : Guild) (hwf : StateWF s)
    (ht : get_player_team s u = some t)
    (howner : t.owner_id = u.id)
    (hlen : t.players.length = 2)
    (humem : u.id ∈ t.players) (hm : m ∈ t.players) (hmne : m ≠ u.id)
    (hg : env.get_guild t.guild_id = some g)
    (hgm : g.get_member m = some pm) :
    team_leave env s u k =
      .ok (⟨dictUpdate s.teams t.name
              ⟨t.name, m, t.guild_id, t.players.erase u.id, t.points⟩,
            dictPop s.player_id_to_team_name u.id⟩,
           .leftTeam ⟨t.name, m, t.guild_id, t.players.erase u.id, t.points⟩) ∧
    dictGet (dictUpdate s.teams t.name
        ⟨t.name, m, t.guild_id, t.players.erase u.id, t.points⟩) t.name =
      some ⟨t.name, m, t.guild_id, t.players.erase u.id, t.points⟩ ∧
    dictGet (dictPop s.player_id_to_team_name u.id) u.id = none := by
  have hpmid : pm.id = m := Guild.get_member_id hgm
  refine ⟨?_,
    dictGet_dictUpdate_self (dictGet_teams_name_of_get_player_team hwf ht),
    dictGet_dictPop_self hwf.2.1⟩
  have hshape : t.players = [u.id, m] ∨ t.players = [m, u.id] := by
    rcases List.length_eq_two.mp hlen with ⟨a, b, hab⟩
    rw [hab] at humem hm
    simp only [List.mem_cons, List.not_mem_nil, or_false] at humem hm
    rcases humem with ha | hb
    · subst ha
      rcases hm with hma | hmb
      · exact absurd hma hmne
      · subst hmb
        exact Or.inl hab
    · subst hb
      rcases hm with hma | hmb
      · subst hma
        exact Or.inr hab
      · exact absurd hmb hmne
  rcases hshape with hcase | hcase <;> rcases hu : g.get_member u.id with _ | p0
  · simp only [team_leave, ht, Team.is_owned_by, howner, decide_True, if_true,
      get_team_players, hg, hcase]
    simp [hu, hgm, hpmid, hmne, Ne.symm hmne, leave_as_owner, Nat.mod_one,
      Team.transfer_ownership, Team.is_owned_by, finish_leave, Team.remove_player,
      howner, hcase]
  · have hp0 : p0.id = u.id := Guild.get_member_id hu
    simp only [team_leave, ht, Team.is_owned_by, howner, decide_True, if_true,
      get_team_players, hg, hcase]
    simp [hu, hgm, hpmid, hp0, hmne, Ne.symm hmne, leave_as_owner, Nat.mod_one,
      Team.transfer_ownership, Team.is_owned_by, finish_leave, Team.remove_player,
      howner, hcase]
  · simp only [team_leave, ht, Team.is_owned_by, howner, decide_True, if_true,
      get_team_players, hg, hcase]
    simp [hu, hgm, hpmid, hmne, Ne.symm hmne, leave_as_owner, Nat.mod_one,
      Team.transfer_ownership, Team.is_owned_by, finish_leave, Team.remove_player,
      howner, hcase]
  · have hp0 : p0.id = u.id := Guild.get_member_id hu
    simp only [team_leave, ht, Team.is_owned_by, howner, decide_True, if_true,
      get_team_players, hg, hcase]
    simp [hu, hgm, hpmid, hp0, hmne, Ne.symm hmne, leave_as_owner, Nat.mod_one,
      Team.transfer_ownership, Team.is_owned_by, finish_leave, Team.remove_player,
      howner, hcase]

/-- Witness for C4 amended: owner 1 leaves the two-member team "A" while
member 2 resolves in guild 9; 2 becomes the owner, the team stays registered
and 1's index entry is gone. -/
theorem C4_leave_two_member_amended_witness :
    team_leave ⟨[⟨9, [⟨1, false⟩, ⟨2, false⟩]⟩]⟩
        ⟨[("A", ⟨"A", 1, 9, [1, 2], 0⟩)], [(1, "A"), (2, "A")]⟩ ⟨1, false⟩ 7 =
      .ok (⟨dictUpdate ([("A", ⟨"A", 1, 9, [1, 2], 0⟩)] : List (String × Team)) "A"
              ⟨"A", 2, 9, List.erase [1, 2] 1, 0⟩,
            dictPop ([(1, "A"), (2, "A")] : List (Nat × String)) 1⟩,
           .leftTeam ⟨"A", 2, 9, List.erase [1, 2] 1, 0⟩) ∧
    dictGet (dictUpdate ([("A", ⟨"A", 1, 9, [1, 2], 0⟩)] : List (String × Team)) "A"
        ⟨"A", 2, 9, List.erase [1, 2] 1, 0⟩) "A" = some ⟨"A", 2, 9, List.erase [1, 2] 1, 0⟩ ∧
    dictGet (dictPop ([(1, "A"), (2, "A")] : List (Nat × String)) 1) 1 = none :=
  C4_leave_two_member_amended ⟨[⟨9, [⟨1, false⟩, ⟨2, false⟩]⟩]⟩
    ⟨[("A", ⟨"A", 1, 9, [1, 2], 0⟩)], [(1, "A"), (2, "A")]⟩ ⟨1, false⟩ ⟨2, false⟩ 7 2
    ⟨"A", 1, 9, [1, 2], 0⟩ ⟨9, [⟨1, false⟩, ⟨2, false⟩]⟩ (by decide) rfl rfl rfl
    (by decide) (by decide) (by decide) rfl rfl

/-- Counterexample to C6 as stated: player 2 is on no team (`get_player_team`
returns `none`) but carries a stale index entry pointing at the deleted team
"Ghost" (such entries are reachable: a disband leaves the entries of members
who left the guild, see the C2 development). Invite-then-remove by owner 1
restores `players` exactly but drops the stale entry, so `playerToTeam` is
not restored to its pre-invite state. -/
theorem C6_roundtrip_counterexample :
    get_player_team ⟨[("A", ⟨"A", 1, 9, [1], 0⟩)], [(1, "A"), (2, "Ghost")]⟩ ⟨2, false⟩
      = none ∧
    team_invite ⟨[("A", ⟨"A", 1, 9, [1], 0⟩)], [(1, "A"), (2, "Ghost")]⟩
        ⟨1, false⟩ ⟨2, false⟩ =
      .ok (⟨[("A", ⟨"A", 1, 9, [1, 2], 0⟩)], [(1, "A"), (2, "A")]⟩,
           .invitedPlayer ⟨2, false⟩) ∧
    team_remove ⟨[("A", ⟨"A", 1, 9, [1, 2], 0⟩)], [(1, "A"), (2, "A")]⟩
        ⟨1, false⟩ ⟨2, false⟩ =
      .ok (⟨[("A", ⟨"A", 1, 9, [1], 0⟩)], [(1, "A")]⟩,
           .removedPlayer ⟨"A", 1, 9, [1], 0⟩ ⟨2, false⟩) ∧
    ([(1, "A")] : List (Nat × String)) ≠ [(1, "A"), (2, "Ghost")] :=
  ⟨rfl, rfl, rfl, by decide⟩

/-- C6 amended: when the invitee has no `playerToTeam` entry at all (rather
than merely no team), a successful invite followed by a remove by the same
owner restores the registry state exactly: `team_remove` returns the original
state `s` itself. -/
theorem C6_invite_remove_roundtrip (s s1 : CogState) (u p : Player)
    (hwf : StateWF s)
    (hpnone : dictGet s.player_id_to_team_name p.id = none)
    (h : team_invite s u p = .ok (s1, .invitedPlayer p)) :
    ∃ t2, team_remove s1 u p = .ok (s, .removedPlayer t2 p) := by
  unfold team_invite at h
  split at h
  · simp at h
  · simp at h
  · cases h
  · rename_i owner_team howned
    split at h
    · simp at h
    · simp at h
    · cases h
    · rename_i t1 hadd
      simp only [Except.ok.injEq, Prod.mk.injEq] at h
      obtain ⟨h1, _⟩ := h
      subst h1
      obtain ⟨ht, howner⟩ := get_team_owned_by_player_ok howned
      obtain ⟨hpnm, ht1⟩ := Team.add_player_ok hadd
      subst ht1
      obtain ⟨n, hidx, hgot⟩ := get_player_team_some ht
      have hn : owner_team.name = n := hwf.2.2.1 (n, owner_team) (dictGet_mem hgot)
      subst hn
      have hne : u.id ≠ p.id := by
        intro he
        rw [he, hpnone] at hidx
        cases hidx
      have hteams : dictGet s.teams owner_team.name = some owner_team := hgot
      refine ⟨owner_team, ?_⟩
      have hiob : Team.is_owned_by
          { owner_team with players := owner_team.players ++ [p.id] } u = true := by
        simp [Team.is_owned_by, howner]
      simp only [team_remove, get_team_owned_by_player, get_player_team,
        dictGet_dictSet_ne hne, hidx, dictGet_dictUpdate_self hteams, hiob, if_true]
      have hrm : Team.remove_player
          { owner_team with players := owner_team.players ++ [p.id] } p =
          .ok owner_team := by
        simp only [Team.remove_player]
        rw [if_neg (by simp), if_neg (by simpa [howner] using Ne.symm hne)]
        rw [List.erase_append_right _ hpnm]
        simp
      rw [hrm]
      simp only [dictUpdate_dictUpdate_restore hteams, dictSet_eq_append hpnone,
        dictPop_append_self hpnone]

/-- Witness for C6 amended: inviting player 2 (no index entry) to team "A"
and then removing them returns the registry to exactly the original state. -/
theorem C6_invite_remove_roundtrip_witness :
    ∃ t2, team_remove ⟨[("A", ⟨"A", 1, 9, [1, 2], 0⟩)], [(1, "A"), (2, "A")]⟩
        ⟨1, false⟩ ⟨2, false⟩ =
      .ok (⟨[("A", ⟨"A", 1, 9, [1], 0⟩)], [(1, "A")]⟩, .removedPlayer t2 ⟨2, false⟩) :=
  C6_invite_remove_roundtrip ⟨[("A", ⟨"A", 1, 9, [1], 0⟩)], [(1, "A")]⟩
    ⟨[("A", ⟨"A", 1, 9, [1, 2], 0⟩)], [(1, "A"), (2, "A")]⟩ ⟨1, false⟩ ⟨2, false⟩
    (by decide) rfl rfl

/-- C10: when the owner leaves and no other member of the team resolves in the
team's guild, the team is popped from the registry, the `CannotRemoveTeamOwner`
raised by `remove_player` is silently swallowed (so the reported team still
lists the departing owner among its players), and the owner's index entry is
deleted. -/
theorem C10_leave_no_successor (env : BotEnv) (s : CogState) (u : Player) (k : Nat)
    (t : Team) (g : Guild) (hwf : StateWF s)
    (ht : get_player_team s u = some t)
    (howner : t.owner_id = u.id)
    (humem : u.id ∈ t.players)
    (hg : env.get_guild t.guild_id = some g)
    (hnosucc : ∀ pid ∈ t.players, pid ≠ u.id → g.get_member pid = none) :
    team_leave env s u k =
      .ok (⟨dictPop s.teams t.name, dictPop s.player_id_to_team_name u.id⟩, .leftTeam t) ∧
    dictGet (dictPop s.teams t.name) t.name = none ∧
    u.id ∈ t.players ∧
    dictGet (dictPop s.player_id_to_team_name u.id) u.id = none := by
  refine ⟨?_, dictGet_dictPop_self hwf.1, humem, dictGet_dictPop_self hwf.2.1⟩
  have hfilter :
      (t.players.filterMap g.get_member).filter
        (fun team_player => team_player.id ≠ u.id) = [] := by
    rw [List.filter_eq_nil_iff]
    intro p hp
    rcases List.mem_filterMap.mp hp with ⟨pid, hpid, hgm⟩
    by_cases hpe : pid = u.id
    · simp [Guild.get_member_id hgm, hpe]
    · rw [hnosucc pid hpid hpe] at hgm
      cases hgm
  simp only [team_leave, ht, Team.is_owned_by, howner, decide_True, if_true,
    get_team_players, hg, hfilter, leave_as_owner]
  simp [finish_leave, Team.remove_player, humem, howner]

/-- Witness for C10: owner 1 leaves team "A" whose only other member 2 has
left guild 9; the team is popped even though its players list still holds 1,
and 1's index entry is gone. -/
theorem C10_leave_no_successor_witness :
    team_leave ⟨[⟨9, [⟨1, false⟩]⟩]⟩
        ⟨[("A", ⟨"A", 1, 9, [1, 2], 0⟩)], [(1, "A"), (2, "A")]⟩ ⟨1, false⟩ 5 =
      .ok (⟨dictPop ([("A", ⟨"A", 1, 9, [1, 2], 0⟩)] : List (String × Team)) "A",
            dictPop ([(1, "A"), (2, "A")] : List (Nat × String)) 1⟩,
           .leftTeam ⟨"A", 1, 9, [1, 2], 0⟩) ∧
    dictGet (dictPop ([("A", ⟨"A", 1, 9, [1, 2], 0⟩)] : List (String × Team)) "A") "A"
      = none ∧
    (1 : Nat) ∈ (Team.mk "A" 1 9 [1, 2] 0).players ∧
    dictGet (dictPop ([(1, "A"), (2, "A")] : List (Nat × String)) 1) 1 = none :=
  C10_leave_no_successor ⟨[⟨9, [⟨1, false⟩]⟩]⟩
    ⟨[("A", ⟨"A", 1, 9, [1, 2], 0⟩)], [(1, "A"), (2, "A")]⟩ ⟨1, false⟩ 5
    ⟨"A", 1, 9, [1, 2], 0⟩ ⟨9, [⟨1, false⟩]⟩ (by decide) rfl rfl (by decide) rfl
    (by decide)
